import Mathlib

/-!
# Package signature verification (`src/verify/pkg.c`)

A shallow embedding of the verification engine of `pkg.c`: the fingerprint
trust store (`parse_fingerprint`, `load_fingerprint`, `load_fingerprints`),
the digest engine (`sha256_hash`, `sha256_buf`, `sha256_fd`), the envelope
parser (`parse_cert`), the signature verifier (`rsa_verify_cert`) and the
orchestrators (`verify_signature`, `verify_pubsignature`, `verify_local`).

Conventions.
* A byte is a `Nat`; a buffer or C string is a `List Nat`.  A buffer read as a
  C string ends at its first NUL byte (`cstr`).
* The file system, the configuration collaborator (`config.h`), libucl and the
  OpenSSL key and signature routines are not part of the repository; they are
  the fields of `World`.  SHA-256 itself is modelled concretely (`SHA256`).
* Every routine that performs observable actions returns a `Run`: its result
  together with the list of actions performed, in order (`Event`).
* A read past the end of a buffer has no defined result; a routine that
  performs one ends with `Res.fault`.
* Diagnostics written to stdout and stderr and the release of memory are not
  modelled; allocation is assumed to succeed.
-/

namespace Pkg

/-! ## Bytes and C strings -/

/-- A buffer of bytes. -/
abbrev Bytes := List Nat

/-- The bytes of a string literal of the source. -/
def cs (s : String) : Bytes := s.toList.map Char.toNat

/-- The C string held in a buffer: the bytes before the first NUL. -/
def cstr (s : Bytes) : Bytes := s.takeWhile (fun b => b ≠ 0)

/-- The `tolower` of the C locale. -/
def tolower (c : Nat) : Nat := if 65 ≤ c ∧ c ≤ 90 then c + 32 else c

/-- Comparison of two NUL-free byte strings, the missing byte at the end of
the shorter one being the terminating NUL. -/
def strcmpAux : Bytes → Bytes → Int
  | [], [] => 0
  | [], b :: _ => -(b : Int)
  | a :: _, [] => (a : Int)
  | a :: as, b :: bs => if a = b then strcmpAux as bs else (a : Int) - (b : Int)

/-- The `strcmp` of libc. -/
def strcmp (s t : Bytes) : Int := strcmpAux (cstr s) (cstr t)

/-- The `strcasecmp` of libc (C locale). -/
def strcasecmp (s t : Bytes) : Int :=
  strcmpAux ((cstr s).map tolower) ((cstr t).map tolower)

/-- The `strlcpy` of libc into a buffer of `size` bytes: the C string stored. -/
def strlcpy (src : Bytes) (size : Nat) : Bytes := (cstr src).take (size - 1)

/-- The C string that `snprintf` stores into a buffer of `size` bytes when the
formatted text is `text`. -/
def snprintf (size : Nat) (text : Bytes) : Bytes := text.take (size - 1)

/-- What the `%s` conversion prints for a string argument (`(null)` for a null
pointer, as FreeBSD libc does). -/
def fmtS : Option Bytes → Bytes
  | none => cs "(null)"
  | some s => cstr s

/-- Constant `BUFSIZ` of FreeBSD `<stdio.h>`. -/
def BUFSIZ : Nat := 1024

/-- Constant `MAXPATHLEN` of FreeBSD `<sys/param.h>`. -/
def MAXPATHLEN : Nat := 1024

/-- Constant `EXIT_FAILURE` of `<stdlib.h>`. -/
def EXIT_FAILURE : Nat := 1

/-- Conversion of a `size_t` value to `int` (two's complement, 32 bits). -/
def toInt32 (n : Nat) : Int :=
  if n % 2 ^ 32 < 2 ^ 31 then ((n % 2 ^ 32 : Nat) : Int) else ((n % 2 ^ 32 : Nat) : Int) - 2 ^ 32

/-- Conversion of an `int` value to `size_t` (64 bits). -/
def toSizeT (i : Int) : Nat := (i % 2 ^ 64).toNat

/-! ## SHA-256 (the `SHA256_Init`, `SHA256_Update`, `SHA256_Final` of OpenSSL) -/

/-- Rotation to the right of a 32-bit word. -/
def rotr (x n : Nat) : Nat := ((x >>> n) ||| (x <<< (32 - n))) % 2 ^ 32

/-- Addition of 32-bit words. -/
def add32 (a b : Nat) : Nat := (a + b) % 2 ^ 32

/-- Complement of a 32-bit word. -/
def not32 (x : Nat) : Nat := 2 ^ 32 - 1 - x % 2 ^ 32

/-- Bisection for the integer `k`-th root of `n` between `lo` and `hi`. -/
def iroot_search (k n : Nat) : Nat → Nat → Nat → Nat
  | 0, lo, _ => lo
  | fuel + 1, lo, hi =>
    if hi ≤ lo + 1 then lo
    else if ((lo + hi) / 2) ^ k ≤ n then iroot_search k n fuel ((lo + hi) / 2) hi
    else iroot_search k n fuel lo ((lo + hi) / 2)

/-- The integer part of the `k`-th root of `n`, for `n` below `2 ^ 128`. -/
def iroot (k n : Nat) : Nat := iroot_search k n 130 0 (2 ^ 64)

/-- The first 64 prime numbers. -/
def sha256_primes : List Nat :=
  [2, 3, 5, 7, 11, 13, 17, 19, 23, 29, 31, 37, 41, 43, 47, 53, 59, 61, 67, 71, 73, 79, 83, 89, 97,
   101, 103, 107, 109, 113, 127, 131, 137, 139, 149, 151, 157, 163, 167, 173, 179, 181, 191, 193,
   197, 199, 211, 223, 227, 229, 233, 239, 241, 251, 257, 263, 269, 271, 277, 281, 283, 293, 307,
   311]

/-- The round constants of SHA-256: the first 32 bits of the fractional parts
of the cube roots of the first 64 primes. -/
def sha256_K : List Nat := sha256_primes.map (fun p => iroot 3 (p * 2 ^ 96) % 2 ^ 32)

/-- The initial hash value of SHA-256: the first 32 bits of the fractional
parts of the square roots of the first 8 primes. -/
def sha256_H0 : List Nat :=
  (sha256_primes.take 8).map (fun p => iroot 2 (p * 2 ^ 64) % 2 ^ 32)

/-- The `n` low bytes of `x`, most significant first. -/
def beBytes : Nat → Nat → List Nat
  | 0, _ => []
  | n + 1, x => (x / 256 ^ n) % 256 :: beBytes n x

/-- The padded message: a `0x80` byte, zero bytes up to 56 modulo 64, and the
bit length on 8 bytes. -/
def sha256_pad (msg : Bytes) : Bytes :=
  msg ++ [0x80] ++ List.replicate ((64 - (msg.length + 9) % 64) % 64) 0
    ++ beBytes 8 (8 * msg.length % 2 ^ 64)

/-- The word whose bytes, most significant first, are `bs`. -/
def beWord (bs : Bytes) : Nat := bs.foldl (fun acc b => acc * 256 + b % 256) 0

/-- The first `n` 32-bit words of a block. -/
def wordsOf : Nat → Bytes → List Nat
  | 0, _ => []
  | n + 1, bs => beWord (bs.take 4) :: wordsOf n (bs.drop 4)

/-- The 64 words of the message schedule of a block. -/
def sha256_schedule (block : Bytes) : List Nat :=
  (List.range 48).foldl
    (fun w i =>
      let w15 := w.getD (i + 1) 0
      let w2 := w.getD (i + 14) 0
      let s0 := rotr w15 7 ^^^ rotr w15 18 ^^^ (w15 >>> 3)
      let s1 := rotr w2 17 ^^^ rotr w2 19 ^^^ (w2 >>> 10)
      w ++ [add32 (add32 (w.getD i 0) s0) (add32 (w.getD (i + 9) 0) s1)])
    (wordsOf 16 block)

/-- One round of the compression function on the working variables. -/
def sha256_round (s : List Nat) (kw : Nat × Nat) : List Nat :=
  match s with
  | [a, b, c, d, e, f, g, h] =>
    let t1 := add32 (add32 (add32 h (rotr e 6 ^^^ rotr e 11 ^^^ rotr e 25))
      (add32 ((e &&& f) ^^^ (not32 e &&& g)) kw.1)) kw.2
    let t2 := add32 (rotr a 2 ^^^ rotr a 13 ^^^ rotr a 22) ((a &&& b) ^^^ (a &&& c) ^^^ (b &&& c))
    [add32 t1 t2, a, b, c, add32 d t1, e, f, g]
  | _ => s

/-- The compression function: the hash value after one more block. -/
def sha256_compress (H : List Nat) (block : Bytes) : List Nat :=
  List.zipWith add32 H ((sha256_K.zip (sha256_schedule block)).foldl sha256_round H)

/-- The hash value after `n` blocks of 64 bytes. -/
def sha256_blocks : Nat → List Nat → Bytes → List Nat
  | 0, H, _ => H
  | n + 1, H, bs => sha256_blocks n (sha256_compress H (bs.take 64)) (bs.drop 64)

/-- The SHA-256 digest (32 bytes) of a byte string. -/
def SHA256 (msg : Bytes) : Bytes :=
  (sha256_blocks ((sha256_pad msg).length / 64) sha256_H0 (sha256_pad msg)).flatMap (beBytes 4)

/-- One lowercase hexadecimal digit. -/
def hexDigit (n : Nat) : Nat := if n < 10 then 48 + n else 87 + n

/-- Function `sha256_hash`: every digest byte printed with `%02x`. -/
def sha256_hash (hash : Bytes) : Bytes :=
  hash.flatMap (fun b => [hexDigit (b / 16 % 16), hexDigit (b % 16)])

/-- Function `sha256_buf`: the hexadecimal SHA-256 digest of the `len` bytes
at `buf`.  `SHA256_Update` reads exactly `len` bytes: with `len` larger than
the buffer the read runs past its end and there is no result (`none`). -/
def sha256_buf (buf : Bytes) (len : Nat) : Option Bytes :=
  if len ≤ buf.length then some (sha256_hash (SHA256 (buf.take len))) else none

/-! ## Data model -/

/-- The enumeration `hash_t`. -/
inductive hash_t
  | HASH_UNKNOWN
  | HASH_SHA256
  deriving DecidableEq, Repr

/-- The `struct fingerprint`; `name` is `none` for a null pointer and `hash`
is the C string held in the array `hash[BUFSIZ]`. -/
structure fingerprint where
  type : hash_t
  name : Option Bytes
  hash : Bytes
  deriving DecidableEq, Repr

/-- The `struct sig_cert`: `sig` and `cert` are the whole buffers, `siglen`
and `certlen` the lengths recorded for them. -/
structure sig_cert where
  name : Option Bytes
  sig : Bytes
  siglen : Int
  cert : Bytes
  certlen : Int
  trusted : Bool
  deriving DecidableEq, Repr

/-- The `struct pubkey`. -/
structure pubkey where
  sig : Bytes
  siglen : Int
  deriving DecidableEq, Repr

/-- The type tag of a libucl object, as far as the program tests it. -/
inductive ucl_type
  | UCL_OBJECT
  | UCL_ARRAY
  | UCL_INT
  | UCL_STRING
  | UCL_BOOLEAN
  | UCL_NULL
  deriving DecidableEq, Repr

/-- One object delivered by `ucl_iterate_object`: its key, its type and the
string `ucl_object_tostring` gives for it. -/
structure ucl_item where
  key : Bytes
  type : ucl_type
  str : Bytes
  deriving DecidableEq, Repr

/-- A parsed libucl document: its type and the objects that
`ucl_iterate_object (obj, &it, true)` delivers, in order. -/
structure ucl_object where
  type : ucl_type
  items : List ucl_item
  deriving DecidableEq, Repr

/-- An open file description: the bytes of the file, the read offset, and
which of the operations on it succeed.  With `readErrAt = some k`, reading the
byte at position `k` (or the end of file, when `k` is the length) fails. -/
structure Fd where
  content : Bytes
  offset : Nat
  seekOk : Bool
  dupOk : Bool
  fdopenOk : Bool
  readErrAt : Option Nat
  deriving DecidableEq, Repr

/-- The keys of the configuration collaborator that the program reads. -/
inductive config_key
  | PUBKEY
  | FINGERPRINTS
  | SIGNATURE_TYPE
  deriving DecidableEq, Repr

/-- A loaded public key (its key material). -/
abbrev EVP_PKEY := Bytes

/-- The collaborators outside the repository. -/
structure World where
  /-- Return value of `config_string` and the pointer it stores. -/
  config_string : config_key → Int × Option Bytes
  /-- Result of `open (path, O_RDONLY)`; `none` stands for `-1`. -/
  sys_open : Bytes → Option Fd
  /-- Result of `opendir` and the names `readdir` then delivers. -/
  opendir : Bytes → Option (List Bytes)
  /-- Result of `ucl_parser_add_file` followed by `ucl_parser_get_object`. -/
  ucl_parser_add_file : Bytes → Option ucl_object
  /-- Result of `BIO_new_file (file, "r")`: the bytes of the file. -/
  BIO_new_file : Bytes → Option Bytes
  /-- Result of `PEM_read_bio_PUBKEY` on the bytes of a BIO. -/
  PEM_read_bio_PUBKEY : Bytes → Option EVP_PKEY
  /-- Whether `EVP_MD_CTX_create` succeeds. -/
  EVP_MD_CTX_create : Bool
  /-- Whether `EVP_DigestVerifyInit` returns 1. -/
  EVP_DigestVerifyInit : EVP_PKEY → Bool
  /-- Whether `EVP_DigestVerifyUpdate` returns 1 for the message given. -/
  EVP_DigestVerifyUpdate : EVP_PKEY → Bytes → Bool
  /-- Whether `EVP_DigestVerifyFinal` returns 1: key, message, signature
  buffer and signature length. -/
  EVP_DigestVerifyFinal : EVP_PKEY → Bytes → Bytes → Nat → Bool

/-- The observable actions recorded. -/
inductive Event
  | sys_open (path : Bytes)
  | verify_signature
  | verify_pubsignature
  | load_fingerprints (path : Bytes)
  | parse_cert
  | read_pubkey
  | sha256_buf
  | sha256_fd
  | rsa_verify_cert
  | EVP_DigestVerify (msg : Bytes)
  deriving DecidableEq, Repr

/-- How a routine ends: it returns a value, the process exits, or the
routine reads past the end of a buffer (`fault`: undefined behaviour, no
result). -/
inductive Res (α : Type)
  | ret (a : α)
  | exit (status : Nat)
  | fault
  deriving DecidableEq, Repr

/-- The result of a routine and the actions it performed. -/
structure Run (α : Type) where
  res : Res α
  trace : List Event
  deriving DecidableEq, Repr

/-! ## Trust store -/

/-- The loop of `parse_fingerprint` over the objects of the document:
`function` and `fp` are the two pointers (`none` for `NULL`). -/
def parse_fingerprint_loop : List ucl_item → Option Bytes → Option Bytes →
    Option Bytes × Option Bytes
  | [], function, fp => (function, fp)
  | cur :: rest, function, fp =>
    if cur.type ≠ ucl_type.UCL_STRING then parse_fingerprint_loop rest function fp
    else if strcasecmp cur.key (cs "function") = 0 then
      parse_fingerprint_loop rest (some cur.str) fp
    else if strcasecmp cur.key (cs "fingerprint") = 0 then
      parse_fingerprint_loop rest function (some cur.str)
    else parse_fingerprint_loop rest function fp

/-- Function `parse_fingerprint`: the record allocated, or `none` for `NULL`. -/
def parse_fingerprint (obj : ucl_object) : Option fingerprint :=
  match parse_fingerprint_loop obj.items none none with
  | (some function, some fp) =>
    let fct := if strcasecmp function (cs "sha256") = 0 then hash_t.HASH_SHA256
      else hash_t.HASH_UNKNOWN
    if fct = hash_t.HASH_UNKNOWN then none
    else some { type := fct, name := none, hash := strlcpy fp BUFSIZ }
  | _ => none

/-- Function `load_fingerprint`. -/
def load_fingerprint (w : World) (dir filename : Bytes) : Option fingerprint :=
  match w.ucl_parser_add_file
      (snprintf MAXPATHLEN (cstr dir ++ cs "/" ++ cstr filename)) with
  | none => none
  | some obj =>
    match (if obj.type = ucl_type.UCL_OBJECT then parse_fingerprint obj else none) with
    | some f => some { f with name := some (cstr filename) }
    | none => none

/-- The `readdir` loop of `load_fingerprints`: the list built so far and the
counter. -/
def load_fingerprints_loop (w : World) (path : Bytes) :
    List Bytes → List fingerprint → Nat → List fingerprint × Nat
  | [], fingerprints, count => (fingerprints, count)
  | d_name :: rest, fingerprints, count =>
    if strcmp d_name (cs ".") = 0 ∨ strcmp d_name (cs "..") = 0 then
      load_fingerprints_loop w path rest fingerprints count
    else
      match load_fingerprint w path d_name with
      | some finger => load_fingerprints_loop w path rest (fingerprints ++ [finger]) (count + 1)
      | none => load_fingerprints_loop w path rest fingerprints count

/-- Function `load_fingerprints`: the list returned (`none` for `NULL`) and the
value left in `*count`. -/
def load_fingerprints (w : World) (path : Bytes) : Option (List fingerprint) × Nat :=
  match w.opendir path with
  | none => (none, 0)
  | some ents =>
    ((load_fingerprints_loop w path ents [] 0).1, (load_fingerprints_loop w path ents [] 0).2)

/-! ## Digest engine on a descriptor -/

/-- The call `lseek (fd, 0, SEEK_SET)`: its return value and the descriptor
afterwards. -/
def lseek0 (fd : Fd) : Int × Fd :=
  if fd.seekOk then (0, { fd with offset := 0 }) else (-1, fd)

/-- The bytes that reading from the current offset delivers before the end of
file or a read error, and whether a read error ended it. -/
def readAll (fd : Fd) : Bytes × Bool :=
  match fd.readErrAt with
  | none => (fd.content.drop fd.offset, false)
  | some k =>
    if fd.offset ≤ k ∧ k ≤ fd.content.length then
      ((fd.content.drop fd.offset).take (k - fd.offset), true)
    else (fd.content.drop fd.offset, false)

/-- The result of `sha256_fd`: return value, the string left in `out`, and the
descriptor afterwards. -/
structure sha256_fd_result where
  ret : Int
  out : Bytes
  fd : Fd
  deriving DecidableEq, Repr

/-- Function `sha256_fd`.  The duplicate shares the read offset of `fd`; the
`fread` loop feeds every byte from the current offset to the end of file into
the hash; the final `lseek` is made on every path and its result ignored. -/
def sha256_fd (fd : Fd) : sha256_fd_result :=
  if ¬ fd.dupOk then { ret := 1, out := [], fd := (lseek0 fd).2 }
  else if ¬ fd.fdopenOk then { ret := 1, out := [], fd := (lseek0 fd).2 }
  else
    let r := readAll fd
    let fd1 := { fd with offset := fd.offset + r.1.length }
    if r.2 then { ret := 1, out := [], fd := (lseek0 fd1).2 }
    else { ret := 0, out := sha256_hash (SHA256 r.1), fd := (lseek0 fd1).2 }

/-! ## Envelope parser -/

/-- The `getline` of libc on the bytes still unread: the line (with its
newline, if any) and the bytes left; `none` for `-1`.  With `err`, a read
error and not the end of file ends the bytes, and a last line without newline
is not delivered. -/
def getline : Bytes → Bool → Option (Bytes × Bytes)
  | [], _ => none
  | b :: rest, err =>
    if b = 10 then some ([10], rest)
    else
      match getline rest err with
      | none => if err then none else some ([b], [])
      | some (l, r) => some (b :: l, r)

/-- The stream `tmpfp` of `parse_cert` when it is not `NULL`. -/
inductive Target
  | sigfp
  | certfp
  deriving DecidableEq, Repr

/-- The `getline` loop of `parse_cert`: the bytes written to the two memory
streams.  At most `fuel` lines are read; `none` when that is not enough. -/
def parse_cert_loop : Nat → Bytes → Bool → Option Target → Bytes → Bytes →
    Option (Bytes × Bytes)
  | 0, _, _, _, _, _ => none
  | fuel + 1, fp, err, tmpfp, sig, cert =>
    match getline fp err with
    | none => some (sig, cert)
    | some (line, fp1) =>
      if strcmp line (cs "SIGNATURE\n") = 0 then
        parse_cert_loop fuel fp1 err (some Target.sigfp) sig cert
      else if strcmp line (cs "CERT\n") = 0 then
        parse_cert_loop fuel fp1 err (some Target.certfp) sig cert
      else if strcmp line (cs "END\n") = 0 then some (sig, cert)
      else
        match tmpfp with
        | none => parse_cert_loop fuel fp1 err none sig cert
        | some Target.sigfp => parse_cert_loop fuel fp1 err tmpfp (sig ++ line) cert
        | some Target.certfp => parse_cert_loop fuel fp1 err tmpfp sig (cert ++ line)

/-- Function `parse_cert`: `none` for `NULL`.  The lengths are computed in
`size_t` and stored into `int` fields. -/
def parse_cert (fd : Fd) : Option sig_cert :=
  if (lseek0 fd).1 = -1 then none
  else if ¬ fd.dupOk then none
  else if ¬ fd.fdopenOk then none
  else
    let r := readAll (lseek0 fd).2
    match parse_cert_loop (r.1.length + 1) r.1 r.2 none [] [] with
    | none => none
    | some (sig, cert) =>
      some { name := none
             sig := sig
             siglen := toInt32 ((sig.length + 2 ^ 64 - 1) % 2 ^ 64)
             cert := cert
             certlen := toInt32 (cert.length % 2 ^ 64)
             trusted := false }

/-- Function `read_pubkey`: the whole file from offset 0 (a failing `read`
ends the loop like the end of file). -/
def read_pubkey (fd : Fd) : Option pubkey :=
  if (lseek0 fd).1 = -1 then none
  else
    let sigb := (readAll (lseek0 fd).2).1
    some { sig := sigb, siglen := toInt32 (sigb.length % 2 ^ 64) }

/-! ## Signature verifier -/

/-- Function `load_public_key_file`: the key (`none` for `NULL`), or the exit
of the process when the file cannot be read. -/
def load_public_key_file (w : World) (file : Bytes) : Res (Option EVP_PKEY) :=
  match w.BIO_new_file file with
  | none => Res.exit EXIT_FAILURE
  | some bytes => Res.ret (w.PEM_read_bio_PUBKEY bytes)

/-- Function `load_public_key_buf`: `BIO_new_mem_buf` takes the length as an
`int` and reads the buffer as a C string when it is negative. -/
def load_public_key_buf (w : World) (cert : Bytes) (certlen : Int) : Option EVP_PKEY :=
  w.PEM_read_bio_PUBKEY (if certlen < 0 then cstr cert else cert.take certlen.toNat)

/-- The part of `rsa_verify_cert` after the key is loaded: the four
`EVP_DigestVerify` steps on the C string in `sha256`. -/
def rsa_verify_cert_evp (w : World) (pkey : EVP_PKEY) (sha256 sig : Bytes) (siglen : Int) :
    Run Bool :=
  if ¬ w.EVP_MD_CTX_create then ⟨Res.ret false, []⟩
  else if ¬ w.EVP_DigestVerifyInit pkey then ⟨Res.ret false, []⟩
  else if ¬ w.EVP_DigestVerifyUpdate pkey (cstr sha256) then
    ⟨Res.ret false, [Event.EVP_DigestVerify (cstr sha256)]⟩
  else if ¬ w.EVP_DigestVerifyFinal pkey (cstr sha256) sig (toSizeT siglen) then
    ⟨Res.ret false, [Event.EVP_DigestVerify (cstr sha256)]⟩
  else ⟨Res.ret true, [Event.EVP_DigestVerify (cstr sha256)]⟩

/-- Function `rsa_verify_cert`.  The result of `sha256_fd` is compared with
`-1`, as in the source. -/
def rsa_verify_cert (w : World) (fd : Fd) (sigfile : Option Bytes) (key : Bytes)
    (keylen : Int) (sig : Bytes) (siglen : Int) : Run Bool :=
  if (lseek0 fd).1 = -1 then ⟨Res.ret false, [Event.rsa_verify_cert]⟩
  else
    let d := sha256_fd (lseek0 fd).2
    if d.ret = -1 then ⟨Res.ret false, [Event.rsa_verify_cert, Event.sha256_fd]⟩
    else
      match sigfile with
      | some file =>
        match load_public_key_file w file with
        | Res.exit status => ⟨Res.exit status, [Event.rsa_verify_cert, Event.sha256_fd]⟩
        | Res.fault => ⟨Res.fault, [Event.rsa_verify_cert, Event.sha256_fd]⟩
        | Res.ret none => ⟨Res.ret false, [Event.rsa_verify_cert, Event.sha256_fd]⟩
        | Res.ret (some pkey) =>
          ⟨(rsa_verify_cert_evp w pkey d.out sig siglen).res,
            [Event.rsa_verify_cert, Event.sha256_fd]
              ++ (rsa_verify_cert_evp w pkey d.out sig siglen).trace⟩
      | none =>
        match load_public_key_buf w key keylen with
        | none => ⟨Res.ret false, [Event.rsa_verify_cert, Event.sha256_fd]⟩
        | some pkey =>
          ⟨(rsa_verify_cert_evp w pkey d.out sig siglen).res,
            [Event.rsa_verify_cert, Event.sha256_fd]
              ++ (rsa_verify_cert_evp w pkey d.out sig siglen).trace⟩

/-! ## Orchestrators -/

/-- Function `verify_pubsignature`. -/
def verify_pubsignature (w : World) (fd_pkg fd_sig : Fd) : Run Bool :=
  if (w.config_string config_key.PUBKEY).1 ≠ 0 then
    ⟨Res.ret false, [Event.verify_pubsignature]⟩
  else
    match read_pubkey fd_sig with
    | none => ⟨Res.ret false, [Event.verify_pubsignature, Event.read_pubkey]⟩
    | some pk =>
      let v := rsa_verify_cert w fd_pkg (w.config_string config_key.PUBKEY).2 [] 0
        pk.sig pk.siglen
      match v.res with
      | Res.exit status =>
        ⟨Res.exit status, [Event.verify_pubsignature, Event.read_pubkey] ++ v.trace⟩
      | Res.fault =>
        ⟨Res.fault, [Event.verify_pubsignature, Event.read_pubkey] ++ v.trace⟩
      | Res.ret false =>
        ⟨Res.ret false, [Event.verify_pubsignature, Event.read_pubkey] ++ v.trace⟩
      | Res.ret true =>
        ⟨Res.ret true, [Event.verify_pubsignature, Event.read_pubkey] ++ v.trace⟩

/-- The path of the `trusted` subdirectory that `verify_signature` builds. -/
def trusted_path (w : World) : Bytes :=
  snprintf MAXPATHLEN (fmtS (w.config_string config_key.FINGERPRINTS).2 ++ cs "/trusted")

/-- The path of the `revoked` subdirectory that `verify_signature` builds. -/
def revoked_path (w : World) : Bytes :=
  snprintf MAXPATHLEN (fmtS (w.config_string config_key.FINGERPRINTS).2 ++ cs "/revoked")

/-- Function `verify_signature`.  The certificate is hashed with the length
`sc->certlen`, an `int`, converted to `size_t`. -/
def verify_signature (w : World) (fd_pkg fd_sig : Fd) : Run Bool :=
  if (w.config_string config_key.FINGERPRINTS).1 ≠ 0 then
    ⟨Res.ret false, [Event.verify_signature]⟩
  else
    match load_fingerprints w (trusted_path w) with
    | (none, _) =>
      ⟨Res.ret false, [Event.verify_signature, Event.load_fingerprints (trusted_path w)]⟩
    | (some trusted, trusted_count) =>
      if trusted_count = 0 then
        ⟨Res.ret false, [Event.verify_signature, Event.load_fingerprints (trusted_path w)]⟩
      else
        match load_fingerprints w (revoked_path w) with
        | (none, _) =>
          ⟨Res.ret false, [Event.verify_signature, Event.load_fingerprints (trusted_path w),
            Event.load_fingerprints (revoked_path w)]⟩
        | (some revoked, _) =>
          match parse_cert fd_sig with
          | none =>
            ⟨Res.ret false, [Event.verify_signature, Event.load_fingerprints (trusted_path w),
              Event.load_fingerprints (revoked_path w), Event.parse_cert]⟩
          | some sc =>
            match sha256_buf sc.cert (toSizeT sc.certlen) with
            | none =>
              ⟨Res.fault, [Event.verify_signature, Event.load_fingerprints (trusted_path w),
                Event.load_fingerprints (revoked_path w), Event.parse_cert, Event.sha256_buf]⟩
            | some hash =>
              if revoked.any (fun f => strcasecmp f.hash hash = 0) then
                ⟨Res.ret false, [Event.verify_signature,
                  Event.load_fingerprints (trusted_path w),
                  Event.load_fingerprints (revoked_path w), Event.parse_cert,
                  Event.sha256_buf]⟩
              else
                match trusted.find? (fun f => strcasecmp f.hash hash = 0) with
                | none =>
                  ⟨Res.ret false, [Event.verify_signature,
                    Event.load_fingerprints (trusted_path w),
                    Event.load_fingerprints (revoked_path w), Event.parse_cert,
                    Event.sha256_buf]⟩
                | some _ =>
                  let v := rsa_verify_cert w fd_pkg none sc.cert sc.certlen sc.sig sc.siglen
                  ⟨v.res, [Event.verify_signature, Event.load_fingerprints (trusted_path w),
                    Event.load_fingerprints (revoked_path w), Event.parse_cert,
                    Event.sha256_buf] ++ v.trace⟩

/-- Function `verify_local`. -/
def verify_local (w : World) (pkgpath : Bytes) : Run Int :=
  match w.sys_open (cstr pkgpath) with
  | none => ⟨Res.exit EXIT_FAILURE, [Event.sys_open (cstr pkgpath)]⟩
  | some fd_pkg =>
    if (w.config_string config_key.SIGNATURE_TYPE).1 ≠ 0 then
      ⟨Res.ret (-1), [Event.sys_open (cstr pkgpath)]⟩
    else
      match (w.config_string config_key.SIGNATURE_TYPE).2 with
      | none => ⟨Res.ret (-1), [Event.sys_open (cstr pkgpath)]⟩
      | some signature_type =>
        if strcasecmp signature_type (cs "NONE") = 0 then
          ⟨Res.ret 0, [Event.sys_open (cstr pkgpath)]⟩
        else if strcasecmp signature_type (cs "FINGERPRINTS") = 0 then
          match w.sys_open (snprintf MAXPATHLEN (cstr pkgpath ++ cs ".sig")) with
          | none =>
            ⟨Res.ret (-1), [Event.sys_open (cstr pkgpath),
              Event.sys_open (snprintf MAXPATHLEN (cstr pkgpath ++ cs ".sig"))]⟩
          | some fd_sig =>
            let v := verify_signature w fd_pkg fd_sig
            ⟨(match v.res with
              | Res.exit status => Res.exit status
              | Res.fault => Res.fault
              | Res.ret false => Res.ret (-1)
              | Res.ret true => Res.ret 0),
             [Event.sys_open (cstr pkgpath),
              Event.sys_open (snprintf MAXPATHLEN (cstr pkgpath ++ cs ".sig"))] ++ v.trace⟩
        else if strcasecmp signature_type (cs "PUBKEY") = 0 then
          match w.sys_open (snprintf MAXPATHLEN (cstr pkgpath ++ cs ".pubkeysig")) with
          | none =>
            ⟨Res.ret (-1), [Event.sys_open (cstr pkgpath),
              Event.sys_open (snprintf MAXPATHLEN (cstr pkgpath ++ cs ".pubkeysig"))]⟩
          | some fd_sig =>
            let v := verify_pubsignature w fd_pkg fd_sig
            ⟨(match v.res with
              | Res.exit status => Res.exit status
              | Res.fault => Res.fault
              | Res.ret false => Res.ret (-1)
              | Res.ret true => Res.ret 0),
             [Event.sys_open (cstr pkgpath),
              Event.sys_open (snprintf MAXPATHLEN (cstr pkgpath ++ cs ".pubkeysig"))]
               ++ v.trace⟩
        else ⟨Res.ret (-1), [Event.sys_open (cstr pkgpath)]⟩

/-! ## Declarative reading of a trust-store entry -/

/-- Whether an object of a document is a string with key `k` ignoring case. -/
def is_string_field (k : Bytes) (it : ucl_item) : Bool :=
  decide (it.type = ucl_type.UCL_STRING) && decide (strcasecmp it.key k = 0)

/-- The string field named `k` of a document: the string of the last object
of type string whose key equals `k` ignoring case; `none` when the document
has no such object. -/
def string_field (obj : ucl_object) (k : Bytes) : Option Bytes :=
  ((obj.items.filter (is_string_field k)).getLast?).map (fun it => it.str)

/-- Whether a directory entry is named `.` or `..`. -/
def is_dot (d_name : Bytes) : Bool :=
  decide (strcmp d_name (cs ".") = 0) || decide (strcmp d_name (cs "..") = 0)

/-- The directory entries other than `.` and `..`. -/
def real_entries (ents : List Bytes) : List Bytes := ents.filter (fun d_name => ! is_dot d_name)

/-! ## Declarative reading of an envelope -/

/-- The lines of a byte string: every line but possibly the last ends with
its newline. -/
def lines : Bytes → List Bytes
  | [] => []
  | b :: rest =>
    if b = 10 then [10] :: lines rest
    else
      match lines rest with
      | [] => [[b]]
      | l :: ls => (b :: l) :: ls

/-- Whether a line is one of the three marker lines. -/
def is_marker (line : Bytes) : Bool :=
  decide (strcmp line (cs "SIGNATURE\n") = 0) || decide (strcmp line (cs "CERT\n") = 0)
    || decide (strcmp line (cs "END\n") = 0)

/-- The scan of `parse_cert` over the lines of the stream. -/
def scan : List Bytes → Option Target → Bytes → Bytes → Bytes × Bytes
  | [], _, sig, cert => (sig, cert)
  | line :: rest, tmpfp, sig, cert =>
    if strcmp line (cs "SIGNATURE\n") = 0 then scan rest (some Target.sigfp) sig cert
    else if strcmp line (cs "CERT\n") = 0 then scan rest (some Target.certfp) sig cert
    else if strcmp line (cs "END\n") = 0 then (sig, cert)
    else
      match tmpfp with
      | none => scan rest none sig cert
      | some Target.sigfp => scan rest tmpfp (sig ++ line) cert
      | some Target.certfp => scan rest tmpfp sig (cert ++ line)

/-- The envelope serialised from signature bytes `S` and certificate bytes
`C`: the marker line `SIGNATURE`, `S` and one newline, the marker line `CERT`,
`C`, the marker line `END`. -/
def envelope (S C : Bytes) : Bytes :=
  cs "SIGNATURE\n" ++ (S ++ [10]) ++ cs "CERT\n" ++ C ++ cs "END\n"

/-- The signature bytes of a parsed envelope: the first `siglen` bytes of the
signature buffer. -/
def sig_bytes (sc : sig_cert) : Bytes := sc.sig.take sc.siglen.toNat

/-- The certificate bytes of a parsed envelope: the first `certlen` bytes of
the certificate buffer. -/
def cert_bytes (sc : sig_cert) : Bytes := sc.cert.take sc.certlen.toNat

/-- A configuration and file system for `verify_local`: the signature type is
the given string and only the package `/pkg.txz` exists. -/
def world_local (signature_type : Option Bytes) : World where
  config_string := fun k =>
    match k with
    | config_key.SIGNATURE_TYPE => (0, signature_type)
    | _ => (-1, none)
  sys_open := fun p =>
    if p = cs "/pkg.txz" then some ⟨cs "data", 0, true, true, true, none⟩ else none
  opendir := fun _ => none
  ucl_parser_add_file := fun _ => none
  BIO_new_file := fun _ => none
  PEM_read_bio_PUBKEY := fun _ => none
  EVP_MD_CTX_create := true
  EVP_DigestVerifyInit := fun _ => true
  EVP_DigestVerifyUpdate := fun _ _ => true
  EVP_DigestVerifyFinal := fun _ _ _ _ => true

/-! ## Concrete configurations used in the examples -/

/-- An open file description of a regular file with the bytes given. -/
def regular_file (content : Bytes) : Fd := ⟨content, 0, true, true, true, none⟩

/-- The SHA-256 hex digest of the certificate bytes `KEY\n`. -/
def key_digest : Bytes := cs "4a3ec3730504983f960fb2df35a1d68d640ff55d151fa3128ca0fc707f86882e"

/-- A trust-store entry with `function = "sha256"` and the fingerprint given. -/
def entry_doc (fp : Bytes) : ucl_object :=
  ⟨ucl_type.UCL_OBJECT,
    [⟨cs "function", ucl_type.UCL_STRING, cs "sha256"⟩,
     ⟨cs "fingerprint", ucl_type.UCL_STRING, fp⟩]⟩

/-- The sidecar `/pkg.txz.sig`: signature `SIG` and certificate `KEY\n`. -/
def sig_file : Fd := regular_file (cs "SIGNATURE\nSIG\nCERT\nKEY\nEND\n")

/-- The package `/pkg.txz`. -/
def pkg_file : Fd := regular_file (cs "data")

/-- A FINGERPRINTS configuration rooted at `/fp`: the trusted directory holds
`.`, `..` and the entry `key1` with the digest of `KEY\n`; the revoked
directory is the argument (`none` when it cannot be opened) and each of its
entries holds the same digest; every key loads and the signature check
answers `accept`. -/
def world_fp (revoked : Option (List Bytes)) (accept : Bool) : World where
  config_string := fun k =>
    match k with
    | config_key.SIGNATURE_TYPE => (0, some (cs "FINGERPRINTS"))
    | config_key.FINGERPRINTS => (0, some (cs "/fp"))
    | config_key.PUBKEY => (-1, none)
  sys_open := fun p =>
    if p = cs "/pkg.txz" then some pkg_file
    else if p = cs "/pkg.txz.sig" then some sig_file else none
  opendir := fun p =>
    if p = cs "/fp/trusted" then some [cs ".", cs "..", cs "key1"]
    else if p = cs "/fp/revoked" then revoked else none
  ucl_parser_add_file := fun _ => some (entry_doc key_digest)
  BIO_new_file := fun _ => none
  PEM_read_bio_PUBKEY := fun b => some b
  EVP_MD_CTX_create := true
  EVP_DigestVerifyInit := fun _ => true
  EVP_DigestVerifyUpdate := fun _ _ => true
  EVP_DigestVerifyFinal := fun _ _ _ _ => accept

/-- The record loaded from an entry of `world_fp` named `key1`. -/
def key1_record : fingerprint := ⟨hash_t.HASH_SHA256, some (cs "key1"), key_digest⟩

/-- A trust-store entry whose fingerprint field holds 1024 bytes. -/
def long_entry_doc : ucl_object := entry_doc (List.replicate 1024 97)

/-- A descriptor on which every read fails (the path names a directory). -/
def unreadable_file : Fd := ⟨[], 0, true, true, true, some 0⟩

/-- A world whose signature check accepts exactly a signature made over the
empty message. -/
def world_empty_digest : World where
  config_string := fun _ => (-1, none)
  sys_open := fun _ => none
  opendir := fun _ => none
  ucl_parser_add_file := fun _ => none
  BIO_new_file := fun _ => none
  PEM_read_bio_PUBKEY := fun b => some b
  EVP_MD_CTX_create := true
  EVP_DigestVerifyInit := fun _ => true
  EVP_DigestVerifyUpdate := fun _ _ => true
  EVP_DigestVerifyFinal := fun _ msg _ _ => decide (msg = [])

/-- A regular file holding the byte `a`, positioned at its end. -/
def file_at_end : Fd := ⟨[97], 1, true, true, true, none⟩

/-! ## Theorems -/

set_option maxRecDepth 1000000

/-! ## Lemmas on C strings -/

/-- A C string holds no NUL byte. -/
theorem cstr_ne_zero (s : Bytes) : ∀ a ∈ cstr s, a ≠ 0 := by
  intro a ha
  have h := List.mem_takeWhile_imp ha
  simpa using h

/-- Function `tolower` maps no other byte to NUL. -/
theorem tolower_ne_zero {c : Nat} (h : c ≠ 0) : tolower c ≠ 0 := by
  unfold tolower
  split <;> omega

/-- On NUL-free strings the comparison gives 0 exactly for equal strings. -/
theorem strcmpAux_eq_zero_iff : ∀ (s t : Bytes), (∀ a ∈ s, a ≠ 0) → (∀ b ∈ t, b ≠ 0) →
    (strcmpAux s t = 0 ↔ s = t)
  | [], [], _, _ => by simp [strcmpAux]
  | [], b :: bs, _, ht => by
    have hb : b ≠ 0 := ht b (by simp)
    simp [strcmpAux]
    omega
  | a :: as, [], hs, _ => by
    have ha : a ≠ 0 := hs a (by simp)
    simp [strcmpAux]
    omega
  | a :: as, b :: bs, hs, ht => by
    have ih := strcmpAux_eq_zero_iff as bs (fun x hx => hs x (by simp [hx]))
      (fun x hx => ht x (by simp [hx]))
    by_cases hab : a = b
    · simp [strcmpAux, hab, ih]
    · simp [strcmpAux, hab]
      omega

/-- Function `strcmp` gives 0 exactly when the two C strings are equal. -/
theorem strcmp_eq_zero_iff (s t : Bytes) : strcmp s t = 0 ↔ cstr s = cstr t :=
  strcmpAux_eq_zero_iff _ _ (cstr_ne_zero s) (cstr_ne_zero t)

/-- Function `strcasecmp` gives 0 exactly when the two C strings are equal after `tolower`. -/
theorem strcasecmp_eq_zero_iff (s t : Bytes) :
    strcasecmp s t = 0 ↔ (cstr s).map tolower = (cstr t).map tolower := by
  unfold strcasecmp
  apply strcmpAux_eq_zero_iff
  · intro a ha
    obtain ⟨x, hx, rfl⟩ := List.mem_map.1 ha
    exact tolower_ne_zero (cstr_ne_zero s x hx)
  · intro a ha
    obtain ⟨x, hx, rfl⟩ := List.mem_map.1 ha
    exact tolower_ne_zero (cstr_ne_zero t x hx)

/-- Every string equals itself ignoring case. -/
theorem strcasecmp_self (s : Bytes) : strcasecmp s s = 0 :=
  (strcasecmp_eq_zero_iff s s).2 rfl

/-! ## The orchestrator `verify_local` -/

/-- C7: when the package file opens and the configured signature type equals
`NONE` ignoring case, `verify_local` returns 0 and the only action performed
is the opening of the package file: no other file is opened, neither
`verify_signature` nor `verify_pubsignature` is called, and no digest or
signature operation takes place. -/
theorem verify_local_none (w : World) (pkgpath : Bytes) (fd_pkg : Fd) (signature_type : Bytes)
    (hopen : w.sys_open (cstr pkgpath) = some fd_pkg)
    (hcfg : w.config_string config_key.SIGNATURE_TYPE = (0, some signature_type))
    (hnone : strcasecmp signature_type (cs "NONE") = 0) :
    verify_local w pkgpath = ⟨Res.ret 0, [Event.sys_open (cstr pkgpath)]⟩ := by
  simp [verify_local, hopen, hcfg, hnone]

/-- C8: when the lookup of the signature type fails, or the signature type is
absent, or it is a string equal to none of `NONE`, `FINGERPRINTS`, `PUBKEY`
ignoring case, `verify_local` never returns 0, it returns -1 whenever the
package file opens, and the only action performed is the opening of the
package file, so neither verification path is run. -/
theorem verify_local_fails_closed (w : World) (pkgpath : Bytes)
    (h : (w.config_string config_key.SIGNATURE_TYPE).1 ≠ 0 ∨
      (w.config_string config_key.SIGNATURE_TYPE).2 = none ∨
      ∃ signature_type, (w.config_string config_key.SIGNATURE_TYPE).2 = some signature_type ∧
        strcasecmp signature_type (cs "NONE") ≠ 0 ∧
        strcasecmp signature_type (cs "FINGERPRINTS") ≠ 0 ∧
        strcasecmp signature_type (cs "PUBKEY") ≠ 0) :
    (verify_local w pkgpath).res ≠ Res.ret 0 ∧
    (∀ fd_pkg, w.sys_open (cstr pkgpath) = some fd_pkg →
      (verify_local w pkgpath).res = Res.ret (-1)) ∧
    (verify_local w pkgpath).trace = [Event.sys_open (cstr pkgpath)] := by
  unfold verify_local
  cases hopen : w.sys_open (cstr pkgpath) with
  | none => simp
  | some fd_pkg =>
    by_cases hrc : (w.config_string config_key.SIGNATURE_TYPE).1 = 0
    · rcases h with h | h | ⟨st, hst, h1, h2, h3⟩
      · exact absurd hrc h
      · simp [hrc, h]
      · simp [hrc, hst, h1, h2, h3]
    · simp [hrc]

/-- C7 at a concrete input: signature type `none`, package `/pkg.txz`. -/
theorem verify_local_none_witness :
    verify_local (world_local (some (cs "none"))) (cs "/pkg.txz")
      = ⟨Res.ret 0, [Event.sys_open (cstr (cs "/pkg.txz"))]⟩ :=
  verify_local_none (world_local (some (cs "none"))) (cs "/pkg.txz")
    ⟨cs "data", 0, true, true, true, none⟩ (cs "none") (by decide) (by decide) (by decide)

/-- C8 at a concrete input: signature type `GPG`, package `/pkg.txz`. -/
theorem verify_local_fails_closed_witness :
    (verify_local (world_local (some (cs "GPG"))) (cs "/pkg.txz")).res ≠ Res.ret 0 ∧
    (∀ fd_pkg, (world_local (some (cs "GPG"))).sys_open (cstr (cs "/pkg.txz")) = some fd_pkg →
      (verify_local (world_local (some (cs "GPG"))) (cs "/pkg.txz")).res = Res.ret (-1)) ∧
    (verify_local (world_local (some (cs "GPG"))) (cs "/pkg.txz")).trace
      = [Event.sys_open (cstr (cs "/pkg.txz"))] :=
  verify_local_fails_closed (world_local (some (cs "GPG"))) (cs "/pkg.txz")
    (Or.inr (Or.inr ⟨cs "GPG", by decide, by decide, by decide, by decide⟩))

/-! ## The trust store -/

/-- A key equal to `function` ignoring case is not equal to `fingerprint` ignoring case. -/
theorem function_key_ne_fingerprint_key (key : Bytes)
    (h : strcasecmp key (cs "function") = 0) : strcasecmp key (cs "fingerprint") ≠ 0 := by
  intro h2
  rw [strcasecmp_eq_zero_iff] at h h2
  rw [h] at h2
  revert h2
  decide

/-- The string field of a document with one more object in front. -/
theorem string_field_cons (t : ucl_type) (cur : ucl_item) (rest : List ucl_item) (k : Bytes) :
    string_field ⟨t, cur :: rest⟩ k
      = (string_field ⟨t, rest⟩ k).or (if is_string_field k cur then some cur.str else none) := by
  unfold string_field
  simp only [List.filter_cons]
  cases h : is_string_field k cur
  · simp only [Bool.false_eq_true, if_false]
    generalize (List.filter (is_string_field k) rest).getLast? = o
    cases o <;> simp
  · simp only [if_true, List.getLast?_cons]
    generalize (List.filter (is_string_field k) rest).getLast? = o
    cases o <;> simp

/-- The loop of `parse_fingerprint` leaves in its two pointers the string fields `function` and `fingerprint` of the document. -/
theorem parse_fingerprint_loop_eq (t : ucl_type) (items : List ucl_item) :
    ∀ (function fp : Option Bytes),
      parse_fingerprint_loop items function fp
        = ((string_field ⟨t, items⟩ (cs "function")).or function,
           (string_field ⟨t, items⟩ (cs "fingerprint")).or fp) := by
  induction items with
  | nil => intro function fp; simp [parse_fingerprint_loop, string_field]
  | cons cur rest ih =>
    intro function fp
    rw [string_field_cons, string_field_cons]
    by_cases hty : cur.type = ucl_type.UCL_STRING
    · by_cases hfn : strcasecmp cur.key (cs "function") = 0
      · have hne := function_key_ne_fingerprint_key cur.key hfn
        simp only [parse_fingerprint_loop, hty, hfn, hne, ih, is_string_field]
        cases string_field ⟨t, rest⟩ (cs "function") <;>
          cases string_field ⟨t, rest⟩ (cs "fingerprint") <;> simp
      · by_cases hfp : strcasecmp cur.key (cs "fingerprint") = 0
        · simp only [parse_fingerprint_loop, hty, hfn, hfp, ih, is_string_field]
          cases string_field ⟨t, rest⟩ (cs "function") <;>
            cases string_field ⟨t, rest⟩ (cs "fingerprint") <;> simp
        · simp only [parse_fingerprint_loop, hty, hfn, hfp, ih, is_string_field]
          cases string_field ⟨t, rest⟩ (cs "function") <;>
            cases string_field ⟨t, rest⟩ (cs "fingerprint") <;> simp
    · simp only [parse_fingerprint_loop, hty, ih, is_string_field]
      cases string_field ⟨t, rest⟩ (cs "function") <;>
        cases string_field ⟨t, rest⟩ (cs "fingerprint") <;> simp [hty]

/-- When `parse_fingerprint` produces a record, and which one. -/
theorem parse_fingerprint_eq_some_iff (obj : ucl_object) (r : fingerprint) :
    parse_fingerprint obj = some r ↔
      ∃ function fp, string_field obj (cs "function") = some function ∧
        string_field obj (cs "fingerprint") = some fp ∧
        strcasecmp function (cs "sha256") = 0 ∧
        r = ⟨hash_t.HASH_SHA256, none, (cstr fp).take (BUFSIZ - 1)⟩ := by
  have hloop := parse_fingerprint_loop_eq obj.type obj.items none none
  simp only [Option.or_none] at hloop
  unfold parse_fingerprint
  rw [hloop]
  cases hf : string_field obj (cs "function") with
  | none => simp
  | some function =>
    cases hp : string_field obj (cs "fingerprint") with
    | none => simp
    | some fp =>
      by_cases hs : strcasecmp function (cs "sha256") = 0
      · simp [hs, strlcpy, eq_comm]
      · simp [hs]

/-- When `load_fingerprint` produces a record, and which one. -/
theorem load_fingerprint_eq_some_iff (w : World) (dir filename : Bytes) (r : fingerprint) :
    load_fingerprint w dir filename = some r ↔
      ∃ obj r0, w.ucl_parser_add_file
          (snprintf MAXPATHLEN (cstr dir ++ cs "/" ++ cstr filename)) = some obj ∧
        obj.type = ucl_type.UCL_OBJECT ∧ parse_fingerprint obj = some r0 ∧
        r = { r0 with name := some (cstr filename) } := by
  unfold load_fingerprint
  cases hu : w.ucl_parser_add_file
      (snprintf MAXPATHLEN (cstr dir ++ cs "/" ++ cstr filename)) with
  | none => simp
  | some obj =>
    by_cases hty : obj.type = ucl_type.UCL_OBJECT
    · cases hp : parse_fingerprint obj with
      | none => simp [hty, hp]
      | some r0 => simp [hty, hp, eq_comm]
    · simp [hty]

/-- The test of the `readdir` loop for the entries `.` and `..`. -/
theorem is_dot_iff (d_name : Bytes) :
    is_dot d_name = true ↔ (strcmp d_name (cs ".") = 0 ∨ strcmp d_name (cs "..") = 0) := by
  simp [is_dot]

/-- The `readdir` loop appends the records of the entries that produce one and counts them. -/
theorem load_fingerprints_loop_eq (w : World) (path : Bytes) (ents : List Bytes) :
    ∀ (fingerprints : List fingerprint) (count : Nat),
      load_fingerprints_loop w path ents fingerprints count
        = (fingerprints ++ (real_entries ents).filterMap (load_fingerprint w path),
           count + ((real_entries ents).filterMap (load_fingerprint w path)).length) := by
  induction ents with
  | nil => intro fingerprints count; simp [load_fingerprints_loop, real_entries]
  | cons d_name rest ih =>
    intro fingerprints count
    have hcons : real_entries (d_name :: rest)
        = if is_dot d_name then real_entries rest else d_name :: real_entries rest := by
      unfold real_entries
      rw [List.filter_cons]
      cases is_dot d_name <;> simp
    rw [hcons]
    cases hdot : is_dot d_name
    · have hd : ¬ (strcmp d_name (cs ".") = 0 ∨ strcmp d_name (cs "..") = 0) := by
        intro h
        rw [(is_dot_iff d_name).2 h] at hdot
        exact Bool.noConfusion hdot
      simp only [load_fingerprints_loop, hd, if_false, Bool.false_eq_true]
      cases hl : load_fingerprint w path d_name with
      | none => simp [ih, hl]
      | some finger =>
        simp only [ih, List.filterMap_cons, hl, List.append_assoc, List.singleton_append,
          List.length_cons]
        refine Prod.ext rfl ?_
        show count + 1 + _ = count + (_ + 1)
        omega
    · have hd := (is_dot_iff d_name).1 hdot
      simp only [load_fingerprints_loop, hd, if_true, ih]

/-- The list and the count `load_fingerprints` returns for a directory that opens. -/
theorem load_fingerprints_eq (w : World) (path : Bytes) (ents : List Bytes)
    (h : w.opendir path = some ents) :
    load_fingerprints w path
      = (some ((real_entries ents).filterMap (load_fingerprint w path)),
         ((real_entries ents).filterMap (load_fingerprint w path)).length) := by
  simp [load_fingerprints, h, load_fingerprints_loop_eq]

/-- Function `sha256_buf` gives a digest exactly when the length stays within
the buffer. -/
theorem sha256_buf_eq_some_iff (buf : Bytes) (len : Nat) (hash : Bytes) :
    sha256_buf buf len = some hash ↔
      len ≤ buf.length ∧ hash = sha256_hash (SHA256 (buf.take len)) := by
  unfold sha256_buf
  by_cases h : len ≤ buf.length
  · simp [h, eq_comm]
  · simp [h]

/-- The lengths `parse_cert` records are the buffer sizes stored into `int`. -/
theorem parse_cert_lengths (fd : Fd) (sc : sig_cert) (h : parse_cert fd = some sc) :
    sc.certlen = toInt32 (sc.cert.length % 2 ^ 64) ∧
    sc.siglen = toInt32 ((sc.sig.length + 2 ^ 64 - 1) % 2 ^ 64) := by
  unfold parse_cert at h
  split at h
  · exact absurd h (by simp)
  · split at h
    · exact absurd h (by simp)
    · split at h
      · exact absurd h (by simp)
      · dsimp only at h
        split at h
        · exact absurd h (by simp)
        · injection h with h
          subst h
          constructor <;> dsimp only

/-- For a certificate section shorter than 2^31 bytes the length passed to
`sha256_buf` is the size of the buffer and the digest is that of the whole
certificate section. -/
theorem sha256_buf_parse_cert (fd : Fd) (sc : sig_cert) (h : parse_cert fd = some sc)
    (hlen : sc.cert.length < 2 ^ 31) :
    sha256_buf sc.cert (toSizeT sc.certlen) = some (sha256_hash (SHA256 sc.cert)) := by
  have h1 : sc.cert.length % 2 ^ 64 = sc.cert.length := Nat.mod_eq_of_lt (by omega)
  have h2 : toInt32 sc.cert.length = (sc.cert.length : Int) := by
    unfold toInt32
    rw [Nat.mod_eq_of_lt (show sc.cert.length < 2 ^ 32 by omega), if_pos hlen]
  have h3 : toSizeT sc.certlen = sc.cert.length := by
    rw [(parse_cert_lengths fd sc h).1, h1, h2]
    unfold toSizeT
    omega
  rw [h3]
  simp [sha256_buf]

/-- For a certificate section of 2^31 to 2^32 - 1 bytes the `int` length is
negative, its conversion to `size_t` exceeds the buffer and `sha256_buf` reads
past its end. -/
theorem sha256_buf_parse_cert_fault (fd : Fd) (sc : sig_cert) (h : parse_cert fd = some sc)
    (hlo : 2 ^ 31 ≤ sc.cert.length) (hhi : sc.cert.length < 2 ^ 32) :
    sha256_buf sc.cert (toSizeT sc.certlen) = none := by
  have h1 : sc.cert.length % 2 ^ 64 = sc.cert.length := Nat.mod_eq_of_lt (by omega)
  have h2 : toInt32 sc.cert.length = (sc.cert.length : Int) - 2 ^ 32 := by
    unfold toInt32
    rw [Nat.mod_eq_of_lt hhi, if_neg (by omega)]
  have h3 : sc.cert.length < toSizeT sc.certlen := by
    rw [(parse_cert_lengths fd sc h).1, h1, h2]
    unfold toSizeT
    omega
  unfold sha256_buf
  rw [if_neg (by omega)]

/-- C9 (amended): `parse_fingerprint` produces a record exactly when the
document has string fields whose keys equal `function` and `fingerprint`
ignoring case (the last such object counting) and the function value equals
`sha256` ignoring case; the record then holds the fingerprint value cut to its
first `BUFSIZ - 1` bytes, and `load_fingerprint` names it after the entry's
file name; `load_fingerprints` returns, in directory order, exactly the records
of the entries other than `.` and `..` that produce one, and counts exactly
those, so a rejected entry contributes nothing and the remaining entries are
still loaded. -/
theorem trust_store_entry_acceptance (w : World) (path : Bytes) :
    (∀ (obj : ucl_object) (r : fingerprint), parse_fingerprint obj = some r ↔
      ∃ function fp, string_field obj (cs "function") = some function ∧
        string_field obj (cs "fingerprint") = some fp ∧
        strcasecmp function (cs "sha256") = 0 ∧
        r = ⟨hash_t.HASH_SHA256, none, (cstr fp).take (BUFSIZ - 1)⟩) ∧
    (∀ (filename : Bytes) (r : fingerprint), load_fingerprint w path filename = some r ↔
      ∃ obj function fp,
        w.ucl_parser_add_file
          (snprintf MAXPATHLEN (cstr path ++ cs "/" ++ cstr filename)) = some obj ∧
        obj.type = ucl_type.UCL_OBJECT ∧
        string_field obj (cs "function") = some function ∧
        string_field obj (cs "fingerprint") = some fp ∧
        strcasecmp function (cs "sha256") = 0 ∧
        r = ⟨hash_t.HASH_SHA256, some (cstr filename), (cstr fp).take (BUFSIZ - 1)⟩) ∧
    (∀ (ents : List Bytes), w.opendir path = some ents →
      load_fingerprints w path
        = (some ((real_entries ents).filterMap (load_fingerprint w path)),
           ((real_entries ents).filterMap (load_fingerprint w path)).length)) := by
  refine ⟨parse_fingerprint_eq_some_iff, ?_, load_fingerprints_eq w path⟩
  intro filename r
  rw [load_fingerprint_eq_some_iff]
  constructor
  · rintro ⟨obj, r0, hu, hty, hp, rfl⟩
    obtain ⟨function, fp, h1, h2, h3, rfl⟩ := (parse_fingerprint_eq_some_iff obj r0).1 hp
    exact ⟨obj, function, fp, hu, hty, h1, h2, h3, rfl⟩
  · rintro ⟨obj, function, fp, hu, hty, h1, h2, h3, rfl⟩
    exact ⟨obj, _, hu, hty,
      (parse_fingerprint_eq_some_iff obj _).2 ⟨function, fp, h1, h2, h3, rfl⟩, rfl⟩

/-- C9, the claim as stated fails: the entry `long_entry_doc` has the string
fields `function = "sha256"` and `fingerprint` of 1024 bytes, and the record
produced holds only the first 1023 bytes of that fingerprint value. -/
theorem trust_store_entry_counterexample :
    string_field long_entry_doc (cs "function") = some (cs "sha256") ∧
    string_field long_entry_doc (cs "fingerprint") = some (List.replicate 1024 97) ∧
    parse_fingerprint long_entry_doc
      = some ⟨hash_t.HASH_SHA256, none, List.replicate 1023 97⟩ ∧
    List.replicate 1023 97 ≠ List.replicate 1024 97 := by
  decide

/-- C9 (amended) at a concrete input: the trusted directory of `world_fp`. -/
theorem trust_store_entry_acceptance_witness :
    load_fingerprints (world_fp none true) (cs "/fp/trusted") = (some [key1_record], 1) :=
  (trust_store_entry_acceptance (world_fp none true) (cs "/fp/trusted")).2.2
    [cs ".", cs "..", cs "key1"] (by decide)

/-! ## The digest engine on a descriptor -/

/-- The return value of `sha256_fd` is 0 or 1, never -1. -/
theorem sha256_fd_ret (fd : Fd) : (sha256_fd fd).ret = 0 ∨ (sha256_fd fd).ret = 1 := by
  unfold sha256_fd
  split
  · exact Or.inr rfl
  · split
    · exact Or.inr rfl
    · dsimp only
      split
      · exact Or.inr rfl
      · exact Or.inl rfl

/-- A failing `sha256_fd` leaves the empty string in `out`. -/
theorem sha256_fd_failure_out (fd : Fd) (h : (sha256_fd fd).ret ≠ 0) : (sha256_fd fd).out = [] := by
  unfold sha256_fd at h ⊢
  split
  · rfl
  · split
    · rfl
    · dsimp only at h ⊢
      split
      · rfl
      · rename_i h1 h2 h3
        simp [h1, h2, h3] at h

/-- When `dup`, `fdopen` or a read fails, `sha256_fd` fails. -/
theorem sha256_fd_failure (fd : Fd)
    (h : fd.dupOk = false ∨ fd.fdopenOk = false ∨ (readAll fd).2 = true) :
    (sha256_fd fd).ret = 1 ∧ (sha256_fd fd).out = [] := by
  unfold sha256_fd
  by_cases h1 : fd.dupOk = true
  · by_cases h2 : fd.fdopenOk = true
    · rcases h with h | h | h
      · simp [h] at h1
      · simp [h] at h2
      · simp [h1, h2, h]
    · simp [h1, h2]
  · simp [h1]

/-- After a failing `sha256_fd` on a seekable package descriptor,
`rsa_verify_cert` (certificate in memory) goes on to load the key and to check
the signature over the empty string. -/
theorem rsa_verify_cert_after_digest_failure (w : World) (fd : Fd) (key : Bytes) (keylen : Int)
    (sig : Bytes) (siglen : Int) (hseek : fd.seekOk = true)
    (hfail : (sha256_fd (lseek0 fd).2).ret ≠ 0) :
    rsa_verify_cert w fd none key keylen sig siglen =
      match load_public_key_buf w key keylen with
      | none => ⟨Res.ret false, [Event.rsa_verify_cert, Event.sha256_fd]⟩
      | some pkey =>
        ⟨(rsa_verify_cert_evp w pkey [] sig siglen).res,
          [Event.rsa_verify_cert, Event.sha256_fd]
            ++ (rsa_verify_cert_evp w pkey [] sig siglen).trace⟩ := by
  have hout := sha256_fd_failure_out _ hfail
  have hret : (sha256_fd (lseek0 fd).2).ret ≠ -1 := by
    rcases sha256_fd_ret (lseek0 fd).2 with h | h <;> rw [h] <;> decide
  have hl : (lseek0 fd).1 ≠ -1 := by simp [lseek0, hseek]
  unfold rsa_verify_cert
  simp only [hl, if_false, hret, hout]

/-- C4, what the code does at the failing input: on `unreadable_file` every
read fails, `sha256_fd` returns 1 and leaves the empty string, and
`rsa_verify_cert` does not stop: it reaches the signature check with the empty
digest string and returns true when the signature verifies over the empty
message. -/
theorem digest_failure_not_detected :
    (sha256_fd unreadable_file).ret = 1 ∧ (sha256_fd unreadable_file).out = [] ∧
    rsa_verify_cert world_empty_digest unreadable_file none (cs "KEY\n") 4 (cs "SIG\n") 3
      = ⟨Res.ret true, [Event.rsa_verify_cert, Event.sha256_fd, Event.EVP_DigestVerify []]⟩ := by
  decide

/-- C5 (amended): on a seekable stream on which `dup`, `fdopen` and every read
succeed, `sha256_fd` returns 0, leaves the stream at offset 0 and gives the
digest of the bytes from the starting offset to the end; a second call gives
the digest of the whole content and again leaves offset 0; the two strings are
equal when the starting offset is 0. -/
theorem sha256_fd_rewinds (fd : Fd) (hseek : fd.seekOk = true) (hdup : fd.dupOk = true)
    (hfdopen : fd.fdopenOk = true) (hread : fd.readErrAt = none) :
    (sha256_fd fd).ret = 0 ∧ (sha256_fd fd).fd.offset = 0 ∧
    (sha256_fd fd).out = sha256_hash (SHA256 (fd.content.drop fd.offset)) ∧
    (sha256_fd (sha256_fd fd).fd).ret = 0 ∧ (sha256_fd (sha256_fd fd).fd).fd.offset = 0 ∧
    (sha256_fd (sha256_fd fd).fd).out = sha256_hash (SHA256 fd.content) ∧
    (fd.offset = 0 → (sha256_fd (sha256_fd fd).fd).out = (sha256_fd fd).out) := by
  have h1 : sha256_fd fd = ⟨0, sha256_hash (SHA256 (fd.content.drop fd.offset)),
      { fd with offset := 0 }⟩ := by
    simp [sha256_fd, readAll, lseek0, hseek, hdup, hfdopen, hread]
  have h2 : sha256_fd { fd with offset := 0 } = ⟨0, sha256_hash (SHA256 fd.content),
      { fd with offset := 0 }⟩ := by
    simp [sha256_fd, readAll, lseek0, hseek, hdup, hfdopen, hread]
  rw [h1]
  dsimp only
  rw [h2]
  refine ⟨rfl, rfl, rfl, rfl, rfl, rfl, ?_⟩
  intro h0
  rw [h0, List.drop_zero]

/-- C5, the claim as stated fails: on the one-byte file `file_at_end`,
positioned at offset 1, the first call of `sha256_fd` leaves offset 0 and gives
the digest of the empty string, and the second call gives the digest of the
byte `a`. -/
theorem sha256_fd_counterexample :
    (sha256_fd file_at_end).fd.offset = 0 ∧
    (sha256_fd file_at_end).out
      = cs "e3b0c44298fc1c149afbf4c8996fb92427ae41e4649b934ca495991b7852b855" ∧
    (sha256_fd (sha256_fd file_at_end).fd).out
      = cs "ca978112ca1bbdcafac231b39a23dc4da786eff8147c4e72b9807785afee48bb" ∧
    (sha256_fd (sha256_fd file_at_end).fd).out ≠ (sha256_fd file_at_end).out := by
  decide

/-- C5 (amended) at a concrete input: `file_at_end`. -/
theorem sha256_fd_rewinds_witness :
    (sha256_fd file_at_end).ret = 0 ∧ (sha256_fd file_at_end).fd.offset = 0 ∧
    (sha256_fd file_at_end).out
      = sha256_hash (SHA256 (file_at_end.content.drop file_at_end.offset)) ∧
    (sha256_fd (sha256_fd file_at_end).fd).ret = 0 ∧
    (sha256_fd (sha256_fd file_at_end).fd).fd.offset = 0 ∧
    (sha256_fd (sha256_fd file_at_end).fd).out = sha256_hash (SHA256 file_at_end.content) ∧
    (file_at_end.offset = 0 →
      (sha256_fd (sha256_fd file_at_end).fd).out = (sha256_fd file_at_end).out) :=
  sha256_fd_rewinds file_at_end rfl rfl rfl rfl

/-! ## The envelope parser -/

/-- Only the empty byte string has no line. -/
theorem lines_eq_nil_iff (s : Bytes) : lines s = [] ↔ s = [] := by
  cases s with
  | nil => simp [lines]
  | cons b rest =>
    simp only [lines]
    split
    · simp
    · split <;> simp

/-- Without a read error `getline` delivers the first line and leaves the bytes of the other lines. -/
theorem getline_spec (s : Bytes) :
    (s = [] ∧ getline s false = none) ∨
    ∃ l r, getline s false = some (l, r) ∧ lines s = l :: lines r ∧ r.length < s.length := by
  induction s with
  | nil => exact Or.inl ⟨rfl, rfl⟩
  | cons b rest ih =>
    right
    by_cases hb : b = 10
    · exact ⟨[10], rest, by simp [getline, hb], by simp [lines, hb], by simp⟩
    · rcases ih with ⟨hnil, hg⟩ | ⟨l, r, hg, hl, hlen⟩
      · subst hnil
        exact ⟨[b], [], by simp [getline, hb], by simp [lines, hb], by simp⟩
      · refine ⟨b :: l, r, by simp [getline, hb, hg], by simp [lines, hb, hl], ?_⟩
        simp only [List.length_cons]
        omega

/-- A line delivered by `getline` is taken off the bytes still unread. -/
theorem getline_length (s : Bytes) (err : Bool) :
    ∀ l r, getline s err = some (l, r) → r.length < s.length := by
  induction s with
  | nil => intro l r h; simp [getline] at h
  | cons b rest ih =>
    intro l r h
    by_cases hb : b = 10
    · simp [getline, hb] at h
      rw [← h.2]
      simp
    · simp only [getline, hb, if_false] at h
      cases hg : getline rest err with
      | none =>
        rw [hg] at h
        cases err <;> simp at h
        rw [h.2]
        simp
      | some p =>
        obtain ⟨l1, r1⟩ := p
        rw [hg] at h
        simp at h
        have := ih l1 r1 hg
        rw [← h.2]
        simp only [List.length_cons]
        omega

/-- The fuel `parse_cert` gives to its loop is enough on every stream, with
or without a read error: the loop returns its two buffers. -/
theorem parse_cert_loop_total :
    ∀ (fuel : Nat) (fp : Bytes) (err : Bool) (tmpfp : Option Target) (sig cert : Bytes),
      fp.length < fuel → ∃ r, parse_cert_loop fuel fp err tmpfp sig cert = some r := by
  intro fuel
  induction fuel with
  | zero => intro fp err tmpfp sig cert h; omega
  | succ n ih =>
    intro fp err tmpfp sig cert h
    cases hg : getline fp err with
    | none => exact ⟨(sig, cert), by simp [parse_cert_loop, hg]⟩
    | some p =>
      obtain ⟨l, r⟩ := p
      have hr : r.length < n := by
        have := getline_length fp err l r hg
        omega
      simp only [parse_cert_loop, hg]
      split
      · exact ih r err _ sig cert hr
      · split
        · exact ih r err _ sig cert hr
        · split
          · exact ⟨_, rfl⟩
          · cases tmpfp with
            | none => exact ih r err _ sig cert hr
            | some t =>
              cases t with
              | sigfp => exact ih r err _ _ cert hr
              | certfp => exact ih r err _ sig _ hr

/-- On a descriptor on which `lseek`, `dup` and `fdopen` succeed, `parse_cert`
returns a result, whatever the bytes of the file and whether or not a read
fails. -/
theorem parse_cert_returns (fd : Fd) (hseek : fd.seekOk = true) (hdup : fd.dupOk = true)
    (hfdopen : fd.fdopenOk = true) : ∃ sc, parse_cert fd = some sc := by
  have hl : (lseek0 fd).1 ≠ -1 := by simp [lseek0, hseek]
  obtain ⟨r, hr⟩ := parse_cert_loop_total ((readAll (lseek0 fd).2).1.length + 1)
    (readAll (lseek0 fd).2).1 (readAll (lseek0 fd).2).2 none [] [] (Nat.lt_succ_self _)
  unfold parse_cert
  simp only [hl, if_false, hdup, hfdopen, not_true_eq_false, hr]
  exact ⟨_, rfl⟩

/-- Without a read error the loop of `parse_cert` is the scan over the lines
of the stream. -/
theorem parse_cert_loop_eq_scan :
    ∀ (fuel : Nat) (fp : Bytes) (tmpfp : Option Target) (sig cert : Bytes),
      fp.length < fuel →
      parse_cert_loop fuel fp false tmpfp sig cert = some (scan (lines fp) tmpfp sig cert) := by
  intro fuel
  induction fuel with
  | zero => intro fp tmpfp sig cert h; omega
  | succ n ih =>
    intro fp tmpfp sig cert h
    rcases getline_spec fp with ⟨hnil, hg⟩ | ⟨l, r, hg, hl, hlen⟩
    · subst hnil
      simp [parse_cert_loop, hg, lines, scan]
    · have hr : r.length < n := by omega
      simp only [parse_cert_loop, hg, hl, scan]
      split
      · exact ih r _ sig cert hr
      · split
        · exact ih r _ sig cert hr
        · split
          · rfl
          · cases tmpfp with
            | none => exact ih r _ sig cert hr
            | some t =>
              cases t with
              | sigfp => exact ih r _ _ cert hr
              | certfp => exact ih r _ sig _ hr

/-- The lines of a byte string with one more byte in front. -/
theorem lines_cons (b : Nat) (rest : Bytes) :
    lines (b :: rest) =
      if b = 10 then [10] :: lines rest
      else
        match lines rest with
        | [] => [[b]]
        | l :: ls => (b :: l) :: ls := by
  rw [lines]

/-- The lines after a newline are those of the bytes that follow it. -/
theorem lines_append_nl (X Y : Bytes) :
    lines (X ++ [10] ++ Y) = lines (X ++ [10]) ++ lines Y := by
  induction X with
  | nil => simp [lines]
  | cons b rest ih =>
    have hne : lines (rest ++ [10]) ≠ [] := by
      rw [Ne, lines_eq_nil_iff]
      simp
    rw [List.cons_append, List.cons_append, lines_cons, lines_cons, ih]
    by_cases hb : b = 10
    · simp [hb]
    · simp only [hb, if_false]
      cases hl : lines (rest ++ [10]) with
      | nil => exact absurd hl hne
      | cons l ls => simp

/-- The lines of a byte string, put together, are the byte string. -/
theorem flatten_lines (s : Bytes) : (lines s).flatten = s := by
  induction s with
  | nil => simp [lines]
  | cons b rest ih =>
    by_cases hb : b = 10
    · simp [lines, hb, ih]
    · simp only [lines, hb, if_false]
      cases hl : lines rest with
      | nil =>
        rw [(lines_eq_nil_iff rest).1 hl]
        simp
      | cons l ls =>
        rw [hl] at ih
        simp only [List.flatten_cons] at ih ⊢
        rw [List.cons_append, ih]

/-- A line that is no marker line fails the three `strcmp` tests. -/
theorem is_marker_eq_false (line : Bytes) (h : is_marker line = false) :
    strcmp line (cs "SIGNATURE\n") ≠ 0 ∧ strcmp line (cs "CERT\n") ≠ 0 ∧
      strcmp line (cs "END\n") ≠ 0 := by
  simp [is_marker] at h
  exact ⟨h.1.1, h.1.2, h.2⟩

/-- One step of the scan. -/
theorem scan_cons (line : Bytes) (rest : List Bytes) (tmpfp : Option Target) (sig cert : Bytes) :
    scan (line :: rest) tmpfp sig cert =
      if strcmp line (cs "SIGNATURE\n") = 0 then scan rest (some Target.sigfp) sig cert
      else if strcmp line (cs "CERT\n") = 0 then scan rest (some Target.certfp) sig cert
      else if strcmp line (cs "END\n") = 0 then (sig, cert)
      else
        match tmpfp with
        | none => scan rest none sig cert
        | some Target.sigfp => scan rest tmpfp (sig ++ line) cert
        | some Target.certfp => scan rest tmpfp sig (cert ++ line) := by
  cases tmpfp with
  | none => simp [scan]
  | some t => cases t <;> simp [scan]

/-- Lines without a marker, read while the target is the signature stream, are appended to the signature buffer. -/
theorem scan_plain_sig (ls : List Bytes) (h : ∀ l ∈ ls, is_marker l = false) :
    ∀ (rest : List Bytes) (sig cert : Bytes),
      scan (ls ++ rest) (some Target.sigfp) sig cert
        = scan rest (some Target.sigfp) (sig ++ ls.flatten) cert := by
  induction ls with
  | nil => intro rest sig cert; simp
  | cons l ls ih =>
    intro rest sig cert
    obtain ⟨h1, h2, h3⟩ := is_marker_eq_false l (h l (by simp))
    have ih1 := ih (fun x hx => h x (by simp [hx])) rest (sig ++ l) cert
    rw [List.cons_append, scan_cons]
    simp only [h1, h2, h3, if_false, ih1, List.flatten_cons, List.append_assoc]

/-- Lines without a marker, read while the target is the certificate stream, are appended to the certificate buffer. -/
theorem scan_plain_cert (ls : List Bytes) (h : ∀ l ∈ ls, is_marker l = false) :
    ∀ (rest : List Bytes) (sig cert : Bytes),
      scan (ls ++ rest) (some Target.certfp) sig cert
        = scan rest (some Target.certfp) sig (cert ++ ls.flatten) := by
  induction ls with
  | nil => intro rest sig cert; simp
  | cons l ls ih =>
    intro rest sig cert
    obtain ⟨h1, h2, h3⟩ := is_marker_eq_false l (h l (by simp))
    have ih1 := ih (fun x hx => h x (by simp [hx])) rest sig (cert ++ l)
    rw [List.cons_append, scan_cons]
    simp only [h1, h2, h3, if_false, ih1, List.flatten_cons, List.append_assoc]

/-- Without a `SIGNATURE` or `CERT` marker line nothing is written. -/
theorem scan_no_target (ls : List Bytes)
    (h : ∀ l ∈ ls, strcmp l (cs "SIGNATURE\n") ≠ 0 ∧ strcmp l (cs "CERT\n") ≠ 0) :
    ∀ (sig cert : Bytes), scan ls none sig cert = (sig, cert) := by
  induction ls with
  | nil => intro sig cert; rfl
  | cons l ls ih =>
    intro sig cert
    obtain ⟨h1, h2⟩ := h l (by simp)
    have ih1 := ih (fun x hx => h x (by simp [hx])) sig cert
    simp only [scan, h1, h2, if_false, ih1]
    split <;> rfl

/-- On a descriptor on which `lseek`, `dup`, `fdopen` and every read succeed,
`parse_cert` returns the buffers of the scan over the lines of the file. -/
theorem parse_cert_eq (fd : Fd) (hseek : fd.seekOk = true) (hdup : fd.dupOk = true)
    (hfdopen : fd.fdopenOk = true) (hread : fd.readErrAt = none) :
    parse_cert fd = some
      { name := none
        sig := (scan (lines fd.content) none [] []).1
        siglen := toInt32 (((scan (lines fd.content) none [] []).1.length + 2 ^ 64 - 1) % 2 ^ 64)
        cert := (scan (lines fd.content) none [] []).2
        certlen := toInt32 ((scan (lines fd.content) none [] []).2.length % 2 ^ 64)
        trusted := false } := by
  have hr : readAll (lseek0 fd).2 = (fd.content, false) := by
    simp [readAll, lseek0, hseek, hread]
  have hl : (lseek0 fd).1 ≠ -1 := by simp [lseek0, hseek]
  unfold parse_cert
  simp only [hl, if_false, hdup, hfdopen, hr, not_true_eq_false]
  rw [parse_cert_loop_eq_scan _ _ _ _ _ (Nat.lt_succ_self _)]

/-- The lines of two byte strings put together, the first being empty or ending with a newline. -/
theorem lines_append_of_nl (X Y : Bytes) (h : X = [] ∨ X.getLast? = some 10) :
    lines (X ++ Y) = lines X ++ lines Y := by
  rcases h with h | h
  · subst h
    simp [lines]
  · obtain ⟨X0, rfl⟩ := List.getLast?_eq_some_iff.1 h
    exact lines_append_nl X0 Y

/-- A length below 2^31 is stored unchanged into an `int`. -/
theorem toInt32_of_lt (n : Nat) (h : n < 2 ^ 31) : toInt32 n = (n : Int) := by
  have h1 : n % 2 ^ 32 = n := Nat.mod_eq_of_lt (by omega)
  unfold toInt32
  rw [h1, if_pos h]

/-- The `size_t` subtraction `sigsz - 1` for a non-empty signature buffer. -/
theorem size_sub_one (n : Nat) (h : n < 2 ^ 31) : (n + 1 + 2 ^ 64 - 1) % 2 ^ 64 = n := by
  omega

/-- A signature section of 2^31 + 1 bytes is recorded with a negative
`siglen`. -/
theorem siglen_wraps : toInt32 ((2 ^ 31 + 1 + 2 ^ 64 - 1) % 2 ^ 64) = -(2 ^ 31) := by
  decide

/-- The lines of a serialised envelope. -/
theorem lines_envelope (S C : Bytes) (hCnl : C = [] ∨ C.getLast? = some 10) :
    lines (envelope S C)
      = [cs "SIGNATURE\n"] ++ (lines (S ++ [10]) ++ ([cs "CERT\n"] ++ (lines C ++ [cs "END\n"]))) := by
  have e1 : envelope S C
      = cs "SIGNATURE" ++ [10] ++ (S ++ [10] ++ (cs "CERT" ++ [10] ++ (C ++ cs "END\n"))) := by
    simp [envelope, cs]
  rw [e1, lines_append_nl, lines_append_nl, lines_append_nl, lines_append_of_nl C _ hCnl]
  rfl

/-- C6 (amended): envelope round trip.  For signature bytes `S` and
certificate bytes `C` shorter than 2^31 bytes, such that no line of `S`
followed by a newline and no line of `C` is one of the marker lines
`SIGNATURE`, `CERT`, `END`, and `C` is empty or ends with a newline, parsing
the serialised envelope succeeds and yields signature bytes exactly `S`
(`siglen = |S|`) and certificate bytes exactly `C` (`certlen = |C|`). -/
theorem envelope_round_trip (fd : Fd) (S C : Bytes)
    (hfd : fd.content = envelope S C)
    (hseek : fd.seekOk = true) (hdup : fd.dupOk = true) (hfdopen : fd.fdopenOk = true)
    (hread : fd.readErrAt = none)
    (hS : ∀ l ∈ lines (S ++ [10]), is_marker l = false)
    (hC : ∀ l ∈ lines C, is_marker l = false)
    (hCnl : C = [] ∨ C.getLast? = some 10)
    (hSlen : S.length < 2 ^ 31) (hClen : C.length < 2 ^ 31) :
    ∃ sc, parse_cert fd = some sc ∧
      sc.siglen = (S.length : Int) ∧ sig_bytes sc = S ∧
      sc.certlen = (C.length : Int) ∧ cert_bytes sc = C ∧ sc.cert = C := by
  have hscan : scan (lines (envelope S C)) none [] [] = (S ++ [10], C) := by
    rw [lines_envelope S C hCnl, List.singleton_append, scan_cons]
    have k1 : strcmp (cs "SIGNATURE\n") (cs "SIGNATURE\n") = 0 := by decide
    have k2 : strcmp (cs "CERT\n") (cs "SIGNATURE\n") ≠ 0 := by decide
    have k3 : strcmp (cs "CERT\n") (cs "CERT\n") = 0 := by decide
    have k4 : strcmp (cs "END\n") (cs "SIGNATURE\n") ≠ 0 := by decide
    have k5 : strcmp (cs "END\n") (cs "CERT\n") ≠ 0 := by decide
    have k6 : strcmp (cs "END\n") (cs "END\n") = 0 := by decide
    rw [if_pos k1, scan_plain_sig _ hS, flatten_lines, List.singleton_append, scan_cons,
      if_neg k2, if_pos k3, scan_plain_cert _ hC, flatten_lines,
      scan_cons, if_neg k4, if_neg k5, if_pos k6]
    simp
  have hp := parse_cert_eq fd hseek hdup hfdopen hread
  rw [hfd, hscan] at hp
  have hs1 : toInt32 (((S ++ [10]).length + 2 ^ 64 - 1) % 2 ^ 64) = (S.length : Int) := by
    rw [List.length_append, List.length_singleton, size_sub_one _ hSlen, toInt32_of_lt _ hSlen]
  have hc1 : toInt32 (C.length % 2 ^ 64) = (C.length : Int) := by
    rw [Nat.mod_eq_of_lt (by omega), toInt32_of_lt _ hClen]
  dsimp only at hp
  rw [hs1, hc1] at hp
  refine ⟨_, hp, rfl, ?_, rfl, ?_, rfl⟩
  · simp [sig_bytes]
  · simp [cert_bytes]

/-- C6, the claim as stated fails: with certificate bytes `KEY` (no final
newline) the certificate buffer parsed is `KEYEND\n`; with signature bytes
`END` the parse stops at the first line of the signature and both buffers are
empty. -/
theorem envelope_round_trip_counterexample :
    parse_cert (regular_file (envelope (cs "SIG") (cs "KEY")))
      = some ⟨none, cs "SIG\n", 3, cs "KEYEND\n", 7, false⟩ ∧
    cert_bytes ⟨none, cs "SIG\n", 3, cs "KEYEND\n", 7, false⟩ ≠ cs "KEY" ∧
    parse_cert (regular_file (envelope (cs "END") (cs "KEY\n")))
      = some ⟨none, [], -1, [], 0, false⟩ ∧
    sig_bytes ⟨none, [], -1, [], 0, false⟩ ≠ cs "END" := by
  decide

/-- C6 (amended) at a concrete input: signature `SIG`, certificate `KEY\n`. -/
theorem envelope_round_trip_witness :
    ∃ sc, parse_cert sig_file = some sc ∧
      sc.siglen = ((cs "SIG").length : Int) ∧ sig_bytes sc = cs "SIG" ∧
      sc.certlen = ((cs "KEY\n").length : Int) ∧ cert_bytes sc = cs "KEY\n" ∧
      sc.cert = cs "KEY\n" :=
  envelope_round_trip sig_file (cs "SIG") (cs "KEY\n") (by decide) rfl rfl rfl rfl
    (by decide) (by decide) (by decide) (by decide) (by decide)

/-- C10, what the code does: on a readable envelope stream that is empty or
has no `SIGNATURE` and no `CERT` marker line, `parse_cert` succeeds with two
empty buffers and certificate length 0, and the signature length recorded is
-1, not 0. -/
theorem parse_cert_markerless (fd : Fd)
    (hseek : fd.seekOk = true) (hdup : fd.dupOk = true) (hfdopen : fd.fdopenOk = true)
    (hread : fd.readErrAt = none)
    (h : ∀ l ∈ lines fd.content,
      strcmp l (cs "SIGNATURE\n") ≠ 0 ∧ strcmp l (cs "CERT\n") ≠ 0) :
    parse_cert fd = some ⟨none, [], -1, [], 0, false⟩ := by
  rw [parse_cert_eq fd hseek hdup hfdopen hread, scan_no_target _ h]
  rfl

/-- C10 at the failing input: the empty envelope stream. -/
theorem parse_cert_markerless_witness :
    parse_cert (regular_file []) = some ⟨none, [], -1, [], 0, false⟩ :=
  parse_cert_markerless (regular_file []) rfl rfl rfl rfl (by decide)

end Pkg
